import Mathlib

/-
Verification development for the `format` package of txix-open/swag
(src/format/format.go): directory traversal, exclusion filtering,
change detection and atomic file replacement.

Strings are modelled as lists of characters (Go strings are byte
slices; all characters relevant to the code under study are ASCII,
where bytes and characters coincide).  File contents are lists of
naturals (byte values).  The filesystem is a flat map from paths to
optional files; directory structure, where traversal needs it, is a
separate tree of entries.
-/

set_option autoImplicit false
set_option linter.unusedVariables false

namespace SwagFmt

/-- A Go string, modelled as a list of characters. -/
abbrev Str : Type := List Char

/-- Byte content of a file, modelled as a list of naturals. -/
abbrev Bytes : Type := List Nat

/-- Models strings.Split(s, sep) for a one-character separator:
splits on every occurrence; the empty string yields one empty field. -/
def splitC (sep : Char) : Str → List Str
  | [] => [[]]
  | c :: rest =>
    if c = sep then [] :: splitC sep rest
    else
      match splitC sep rest with
      | s :: ss => (c :: s) :: ss
      | [] => [[c]]

/-- Models the ASCII fragment of unicode.IsSpace, as used by
strings.TrimSpace. -/
def isSpaceGo (c : Char) : Bool :=
  c = ' ' || c = '\t' || c = '\n' || c = '\x0b' || c = '\x0c' || c = '\r'

/-- Models strings.TrimSpace (restricted to ASCII white space). -/
def trimSpace (s : Str) : Str :=
  ((s.dropWhile isSpaceGo).reverse.dropWhile isSpaceGo).reverse

/-- Models the ASCII fragment of strings.ToLower: the code only ever
compares against the ASCII suffix "_test.go". -/
def toLowerG (s : Str) : Str :=
  s.map Char.toLower

/-- Models strings.HasSuffix. -/
def hasSuffix (s suf : Str) : Bool :=
  List.isSuffixOf suf s

/-- Models bytes.Equal: true iff the two byte slices have the same
length and the same bytes. -/
def bytesEqual : Bytes → Bytes → Bool
  | [], [] => true
  | a :: as, b :: bs => a == b && bytesEqual as bs
  | _, _ => false

/-- Strip trailing path separators, the first step of filepath.Base. -/
def dropTrailingSlashes (s : Str) : Str :=
  (s.reverse.dropWhile (fun c => c == '/')).reverse

/-- The suffix after the last separator of a path with no trailing
separator. -/
def lastElem (s : Str) : Str :=
  (s.reverse.takeWhile (fun c => c != '/')).reverse

/-- Models path/filepath.Base (unix): empty path gives ".", a path of
only separators gives "/", otherwise the last element after stripping
trailing separators. -/
def base (path : Str) : Str :=
  if path = [] then ['.']
  else
    let p := dropTrailingSlashes path
    if p = [] then ['/'] else lastElem p

/-- Helper for filepath.Ext: scans the reversed path from the end of the
original string; stops at a separator, returns the extension once a dot
is found. -/
def extAux : Str → Str → Str
  | [], _ => []
  | c :: rest, acc =>
    if c = '/' then []
    else if c = '.' then '.' :: acc
    else extAux rest (c :: acc)

/-- Models path/filepath.Ext: the suffix beginning at the final dot in
the final separator-separated element of the path; empty if there is no
such dot. -/
def extF (path : Str) : Str :=
  extAux path.reverse []

/-- Models path/filepath.Clean (unix) by its documented semantics:
collapse repeated separators, drop "." elements, resolve ".." against a
preceding element, drop ".." at the root; the empty path cleans to ".". -/
def clean (path : Str) : Str :=
  if path = [] then ['.']
  else
    let rooted := path.head? = some '/'
    let segs := (splitC '/' path).filter (fun s => !(s.isEmpty || s == ['.']))
    let stack := segs.foldl
      (fun stack seg =>
        if seg == ['.', '.'] then
          match stack with
          | [] => if rooted then [] else [seg]
          | top :: rest => if top == ['.', '.'] then seg :: stack else rest
        else seg :: stack)
      ([] : List Str)
    let outSegs := stack.reverse
    if outSegs = [] then (if rooted then ['/'] else ['.'])
    else (if rooted then ['/'] else []) ++ List.intercalate ['/'] outSegs

/-- Models path/filepath.Join on two elements: skip leading empty
elements, join the rest with a separator, and clean the result. -/
def joinTwo (a b : Str) : Str :=
  if a ≠ [] then clean (a ++ '/' :: b)
  else if b ≠ [] then clean b
  else []

/-- The Format receiver of src/format/format.go: its exclude map
(map from path to bool), modelled as its membership function. -/
structure FormatS where
  exclude : Str → Bool

/-- A Format as produced by New(): empty exclude map. -/
def newFormat : FormatS := ⟨fun _ => false⟩

/-- Models map insertion exclude[k] = true. -/
def exclInsert (m : Str → Bool) (k : Str) : Str → Bool :=
  fun q => if q = k then true else m q

/-- Models Format.excludeDir: a path is excluded as a directory when it
is in the exclude map, or when its base name begins with a dot and has
length greater than one (hidden folders). -/
def excludeDir (f : FormatS) (path : Str) : Bool :=
  f.exclude path ||
    (match base path with
     | c :: _ => c == '.' && decide ((base path).length > 1)
     | [] => false)

/-- Models Format.excludeFile: a path is excluded as a file when it is
in the exclude map, or its lowercased form ends in "_test.go", or its
extension is not ".go". -/
def excludeFile (f : FormatS) (path : Str) : Bool :=
  f.exclude path ||
    hasSuffix (toLowerG path) ("_test.go".toList) ||
    !(extF path == ".go".toList)

/-- A regular file: its byte content and its permission bits. -/
structure File where
  content : Bytes
  perm : Nat
  deriving DecidableEq

/-- A flat filesystem: a map from paths to optional regular files.
A path bound to none is not a regular file (absent, or a directory). -/
abbrev FS : Type := Str → Option File

/-- Point update of a filesystem (file creation, overwrite, removal). -/
def fsUpdate (fs : FS) (p : Str) (v : Option File) : FS :=
  fun q => if q = p then v else fs q

/-- Errors surfaced by the pipeline.  wrap models the
fmt.Errorf("fmt: %w", err) wrapping applied by Build and visit. -/
inductive Err where
  | notExist
  | statErr
  | createTempErr
  | writeErr
  | closeErr
  | chmodErr
  | renameErr
  | readErr
  | transformErr
  | walkErr
  | wrap (e : Err)
  deriving DecidableEq

/-- The opaque external Transformer (swag.Formatter.Format): a pure
function from a path and byte content to rewritten bytes or an error. -/
abbrev Transformer : Type := Str → Bytes → Except Err Bytes

/-- Fault model for the six steps of write: a flag per fallible step.
writeF carries the partial content left in the temporary file when the
write step fails midway. -/
structure Faults where
  statF : Bool
  createF : Bool
  writeF : Option Bytes
  closeF : Bool
  chmodF : Bool
  renameF : Bool

/-- All six steps succeed. -/
def noFaults : Faults := ⟨false, false, none, false, false, false⟩

/-- Models write(path, contents) of src/format/format.go.  tmp is the
fresh name chosen by os.CreateTemp (same directory as path, pattern
Base(path), so tmp differs from path and from every existing file).
Steps: stat path; create the temporary file (mode 0600); write the
contents; close; chmod the temporary file to the original mode; rename
it over path.  The deferred os.Remove of the temporary file runs on
every exit path; its own error after a successful rename is ignored.
Returns the filesystem after the call and the error, if any. -/
def write (fs : FS) (path : Str) (contents : Bytes) (tmp : Str)
    (flt : Faults) : FS × Option Err :=
  match fs path with
  | none => (fs, some Err.statErr)
  | some orig =>
    if flt.statF then (fs, some Err.statErr)
    else if flt.createF then (fs, some Err.createTempErr)
    else
      let fs1 := fsUpdate fs tmp (some ⟨[], 384⟩)
      match flt.writeF with
      | some pc =>
        (fsUpdate (fsUpdate fs1 tmp (some ⟨pc, 384⟩)) tmp none, some Err.writeErr)
      | none =>
        let fs2 := fsUpdate fs1 tmp (some ⟨contents, 384⟩)
        if flt.closeF then (fsUpdate fs2 tmp none, some Err.closeErr)
        else if flt.chmodF then (fsUpdate fs2 tmp none, some Err.chmodErr)
        else
          let fs3 := fsUpdate fs2 tmp (some ⟨contents, orig.perm⟩)
          if flt.renameF then (fsUpdate fs3 tmp none, some Err.renameErr)
          else
            (fsUpdate (fsUpdate fs3 path (some ⟨contents, orig.perm⟩)) tmp none,
              none)

/-- Models Format.format(path): read the file (os.ReadFile fails on an
absent path or a directory), copy the contents, run the Transformer,
compare with bytes.Equal and skip the write when nothing changed,
otherwise replace the file via write.  The copy made before the
Transformer call is the identity in this pure model. -/
def formatF (T : Transformer) (fs : FS) (path : Str) (tmp : Str)
    (flt : Faults) : FS × Option Err :=
  match fs path with
  | none => (fs, some Err.readErr)
  | some orig =>
    match T path orig.content with
    | Except.error e => (fs, some e)
    | Except.ok formatted =>
      if bytesEqual orig.content formatted then (fs, none)
      else write fs path formatted tmp flt

/-- Models Format.Run(src, dst): read all of the input, run the
Transformer once with the empty path, and write the whole result to the
output.  Stream I/O errors are outside this pure model. -/
def Run (T : Transformer) (input : Bytes) : Except Err Bytes :=
  match T [] input with
  | Except.error e => Except.error e
  | Except.ok result => Except.ok result

/-- A per-file pipeline as seen by the walker: given a path and the
filesystem, produce the new filesystem and an error, if any. -/
abbrev Pipe : Type := Str → FS → FS × Option Err

/-- The pipeline actually installed by Build: Format.format with a
temporary-name choice per path and a fault assignment. -/
def pipeFmt (T : Transformer) (tmpOf : Str → Str) (flt : Faults) : Pipe :=
  fun path fs => formatF T fs path (tmpOf path) flt

/-- Result of the visit callback as filepath.Walk sees it: skip the
directory, continue, or abort with an error. -/
inductive VisitR where
  | skipDir
  | ok
  | fail (e : Err)
  deriving DecidableEq

/-- Outcome of one visit: the filesystem afterwards, the paths on which
the per-file pipeline was invoked (empty or a singleton), and the
callback result. -/
structure VOut where
  fs : FS
  visits : List Str
  res : VisitR

/-- Models Format.visit(path, fileInfo, err), the filepath.WalkFunc of
Build.  The err argument reported by the walk primitive is accepted but
not consulted by the body.  A directory that excludeDir excludes yields
SkipDir; a path that excludeFile excludes is skipped silently; any
other path goes through the per-file pipeline, whose error is wrapped
with the "fmt:" prefix. -/
def visit (f : FormatS) (pipe : Pipe) (path : Str) (isDir : Bool)
    (err : Option Err) (fs : FS) : VOut :=
  if isDir && excludeDir f path then ⟨fs, [], VisitR.skipDir⟩
  else if excludeFile f path then ⟨fs, [], VisitR.ok⟩
  else
    match pipe path fs with
    | (fs1, some e) => ⟨fs1, [path], VisitR.fail (Err.wrap e)⟩
    | (fs1, none) => ⟨fs1, [path], VisitR.ok⟩

mutual

/-- A directory-tree entry: a regular file or a directory with its
children, listed in the (sorted) order filepath.Walk enumerates them.
File contents live in the flat filesystem, keyed by path. -/
inductive Entry where
  | file (name : Str)
  | dir (name : Str) (children : EntryList)

/-- A list of sibling entries. -/
inductive EntryList where
  | nil
  | cons (head : Entry) (tail : EntryList)

end

/-- The name of an entry. -/
def Entry.nameOf : Entry → Str
  | Entry.file n => n
  | Entry.dir n _ => n

/-- Result of a walk: the filesystem afterwards, the paths on which the
per-file pipeline was invoked, in order, and the first error. -/
structure WalkR where
  fs : FS
  visits : List Str
  err : Option Err

mutual

/-- Models the recursive walk of path/filepath.Walk driven by
Format.visit.  A file calls visit once.  A directory calls visit on
itself: SkipDir prunes the whole subtree and continues; an error aborts;
otherwise the children are walked in order at paths joined with the
directory path, stopping at the first error.  visit never returns
SkipDir for a file, so that case continues like ok. -/
def walkE (f : FormatS) (pipe : Pipe) (path : Str) (e : Entry)
    (fs : FS) : WalkR :=
  match e with
  | Entry.file _ =>
    match visit f pipe path false none fs with
    | ⟨fs1, vs, VisitR.fail e⟩ => ⟨fs1, vs, some e⟩
    | ⟨fs1, vs, _⟩ => ⟨fs1, vs, none⟩
  | Entry.dir _ cs =>
    match visit f pipe path true none fs with
    | ⟨fs1, vs, VisitR.skipDir⟩ => ⟨fs1, vs, none⟩
    | ⟨fs1, vs, VisitR.fail e⟩ => ⟨fs1, vs, some e⟩
    | ⟨fs1, vs, VisitR.ok⟩ =>
      let r := walkList f pipe path cs fs1
      ⟨r.fs, vs ++ r.visits, r.err⟩

/-- Walks a directory's children in order, stopping at the first
error. -/
def walkList (f : FormatS) (pipe : Pipe) (pp : Str) (l : EntryList)
    (fs : FS) : WalkR :=
  match l with
  | EntryList.nil => ⟨fs, [], none⟩
  | EntryList.cons c rest =>
    let r := walkE f pipe (joinTwo pp c.nameOf) c fs
    match r.err with
    | some e => ⟨r.fs, r.visits, some e⟩
    | none =>
      let r2 := walkList f pipe pp rest r.fs
      ⟨r2.fs, r.visits ++ r2.visits, r2.err⟩

end

/-- The directory forest: which tree, if any, is rooted at a path.
A root bound to none does not exist (os.Stat reports not-exist). -/
structure World where
  tree : Str → Option Entry

/-- Models filepath.Walk(root, f.visit): stat the root and walk it.
Build only walks roots whose existence it has already checked, so the
missing-root branch is unreachable from Build. -/
def Walk (f : FormatS) (pipe : Pipe) (root : Str) (w : World)
    (fs : FS) : WalkR :=
  match w.tree root with
  | none => ⟨fs, [], some Err.walkErr⟩
  | some e => walkE f pipe root e fs

/-- Models format.Config: comma-separated search directories,
comma-separated excludes, and the deprecated MainFile field, which no
code reads. -/
structure Config where
  SearchDir : Str
  Excludes : Str
  MainFile : Str

/-- The defaultExcludes variable: directory names joined under every
search directory. -/
def defaultExcludes : List Str := ["docs".toList, "vendor".toList]

/-- The first loop of Build: for each search directory in order, stat
it, returning a wrapped not-exist error if it is missing, and otherwise
register the default excludes joined under it. -/
def checkRoots (w : World) : List Str → (Str → Bool) → (Str → Bool) × Option Err
  | [], ex => (ex, none)
  | d :: rest, ex =>
    match w.tree d with
    | none => (ex, some (Err.wrap Err.notExist))
    | some _ =>
      checkRoots w rest
        (exclInsert (exclInsert ex (joinTwo d ("docs".toList)))
          (joinTwo d ("vendor".toList)))

/-- The second loop of Build: each comma-separated exclude token is
trimmed, dropped if empty, and otherwise registered cleaned. -/
def addUserExcludes : List Str → (Str → Bool) → (Str → Bool)
  | [], ex => ex
  | t :: rest, ex =>
    let t2 := trimSpace t
    if t2 = [] then addUserExcludes rest ex
    else addUserExcludes rest (exclInsert ex (clean t2))

/-- The third loop of Build: walk each search directory in order,
returning at the first walk error. -/
def walkRoots (f : FormatS) (pipe : Pipe) (w : World) : List Str → FS → WalkR
  | [], fs => ⟨fs, [], none⟩
  | d :: rest, fs =>
    let r := Walk f pipe d w fs
    match r.err with
    | some e => ⟨r.fs, r.visits, some e⟩
    | none =>
      let r2 := walkRoots f pipe w rest r.fs
      ⟨r2.fs, r.visits ++ r2.visits, r2.err⟩

/-- Models Format.Build(config) on a fresh Format (New() starts with an
empty exclude map): check every search directory for existence and
register default excludes; register user excludes; then walk each
search directory.  Returns the final exclude map and the walk result. -/
def Build (cfg : Config) (w : World) (pipe : Pipe) (fs : FS) :
    (Str → Bool) × WalkR :=
  let searchDirs := splitC ',' cfg.SearchDir
  match checkRoots w searchDirs (newFormat.exclude) with
  | (ex, some e) => (ex, ⟨fs, [], some e⟩)
  | (ex, none) =>
    let ex2 := addUserExcludes (splitC ',' cfg.Excludes) ex
    (ex2, walkRoots ⟨ex2⟩ pipe w searchDirs fs)

/-- The empty filesystem. -/
def fsNone : FS := fun _ => none

/-- A filesystem with one file "a" of mode 0644. -/
def fsA : FS := fun q => if q = ['a'] then some ⟨[1], 420⟩ else none

/-- A filesystem with one file "r/a.go" of mode 0644. -/
def fs9 : FS := fun q => if q = "r/a.go".toList then some ⟨[5], 420⟩ else none

/-- A pipeline that does nothing and succeeds. -/
def pipeNone : Pipe := fun _ fs => (fs, none)

/-- A pipeline that does nothing and fails. -/
def pipeErr : Pipe := fun _ fs => (fs, some Err.readErr)

/-- The identity Transformer. -/
def idT : Transformer := fun _ c => Except.ok c

/-- A Transformer that rewrites every content to the byte 2. -/
def constT : Transformer := fun _ _ => Except.ok [2]

/-- A path-sensitive Transformer: its output depends on whether the
path is empty. -/
def pathT : Transformer := fun p _ => Except.ok (if p.isEmpty then [0] else [1])

/-- A fault assignment where only the close step fails. -/
def fltClose : Faults := ⟨false, false, none, true, false, false⟩

/-- An exclude map containing exactly "r/vendor". -/
def exVendor : FormatS := ⟨fun q => q == "r/vendor".toList⟩

/-- A temporary-name choice: append a tilde to the path. -/
def tmpTilde : Str → Str := fun p => p ++ ['~']

/-- A world with a root "r" holding one file "a.go". -/
def w9 : World :=
  ⟨fun q => if q = ['r'] then
    some (Entry.dir ['r'] (EntryList.cons (Entry.file "a.go".toList) EntryList.nil))
  else none⟩

/-- A world with a root "r" holding one subdirectory named "x.go". -/
def w10 : World :=
  ⟨fun q => if q = ['r'] then
    some (Entry.dir ['r']
      (EntryList.cons (Entry.dir "x.go".toList EntryList.nil) EntryList.nil))
  else none⟩

/-- A world where only the root "a" exists. -/
def wAB : World := ⟨fun q => if q = ['a'] then some (Entry.file ['a']) else none⟩

theorem fsUpdate_same (fs : FS) (p : Str) (v : Option File) :
    fsUpdate fs p v p = v := by
  simp [fsUpdate]

theorem fsUpdate_other (fs : FS) (p q : Str) (v : Option File) (h : q ≠ p) :
    fsUpdate fs p v q = fs q := by
  simp [fsUpdate, h]

theorem bytesEqual_eq_true_iff (a b : Bytes) : bytesEqual a b = true ↔ a = b := by
  induction a generalizing b with
  | nil => cases b <;> simp [bytesEqual]
  | cons x xs ih => cases b <;> simp [bytesEqual, ih]

theorem bytesEqual_eq_false_of_ne {a b : Bytes} (h : b ≠ a) :
    bytesEqual a b = false := by
  cases hb : bytesEqual a b
  · rfl
  · exact absurd ((bytesEqual_eq_true_iff a b).mp hb).symm h

/-- C1: for every call to write that fails at any step of the
stat, create-temp, write, close, chmod, rename sequence, the target
file's content and permission bits are unchanged after the call, and
the temporary file is absent after the call on every exit path,
success or failure. -/
theorem write_failure_atomic (fs : FS) (path : Str) (contents : Bytes)
    (tmp : Str) (flt : Faults) (htmp : tmp ≠ path) (hfresh : fs tmp = none) :
    (write fs path contents tmp flt).1 tmp = none ∧
      ((write fs path contents tmp flt).2.isSome = true →
        (write fs path contents tmp flt).1 path = fs path) := by
  have hpt : path ≠ tmp := Ne.symm htmp
  rcases flt with ⟨s, c, wv, cl, ch, rn⟩
  unfold write
  cases hp : fs path with
  | none => simp [hfresh, hp]
  | some orig =>
    cases s <;> cases c <;> cases wv <;> cases cl <;> cases ch <;> cases rn <;>
      simp [fsUpdate, hfresh, hpt, hp]

/-- Witness for C1 at a concrete call whose close step fails. -/
theorem write_failure_atomic_witness :
    (write fsA ['a'] [2] ['t'] fltClose).1 ['t'] = none ∧
      ((write fsA ['a'] [2] ['t'] fltClose).2.isSome = true →
        (write fsA ['a'] [2] ['t'] fltClose).1 ['a'] = fsA ['a']) :=
  write_failure_atomic fsA ['a'] [2] ['t'] fltClose (by decide) (by decide)

/-- C2: when a file is rewritten (the transformed bytes differ from the
original) and the replacement succeeds, the resulting file carries the
new content under the permission bits captured from the original file. -/
theorem rewrite_preserves_perm (T : Transformer) (fs : FS) (path tmp : Str)
    (flt : Faults) (orig : File) (out : Bytes)
    (hfs : fs path = some orig) (hT : T path orig.content = Except.ok out)
    (hne : out ≠ orig.content) (htmp : tmp ≠ path)
    (hok : (formatF T fs path tmp flt).2 = none) :
    (formatF T fs path tmp flt).1 path = some ⟨out, orig.perm⟩ := by
  have hpt : path ≠ tmp := Ne.symm htmp
  have hg : bytesEqual orig.content out = false := bytesEqual_eq_false_of_ne hne
  rcases flt with ⟨s, c, wv, cl, ch, rn⟩
  unfold formatF write at hok ⊢
  rw [hfs] at hok ⊢
  simp only [hT, hg, Bool.false_eq_true, if_false] at hok ⊢
  cases s <;> cases c <;> cases wv <;> cases cl <;> cases ch <;> cases rn <;>
    simp_all [fsUpdate, hpt]

/-- Witness for C2 at a concrete rewritten file. -/
theorem rewrite_preserves_perm_witness :
    (formatF constT fsA ['a'] ['t'] noFaults).1 ['a'] = some ⟨[2], 420⟩ :=
  rewrite_preserves_perm constT fsA ['a'] ['t'] noFaults ⟨[1], 420⟩ [2]
    (by decide) rfl (by decide) (by decide) (by decide)

/-- C3: the change gate is exact byte equality: bytes.Equal holds iff
the byte sequences are equal; when the transformed bytes equal the
original the file and the whole filesystem are left untouched and no
write is performed; when they differ, format performs the write. -/
theorem change_gate_exact :
    (∀ a b : Bytes, bytesEqual a b = true ↔ a = b) ∧
      (∀ (T : Transformer) (fs : FS) (path tmp : Str) (flt : Faults) (orig : File),
        fs path = some orig → T path orig.content = Except.ok orig.content →
        formatF T fs path tmp flt = (fs, none)) ∧
      (∀ (T : Transformer) (fs : FS) (path tmp : Str) (flt : Faults)
          (orig : File) (out : Bytes),
        fs path = some orig → T path orig.content = Except.ok out →
        out ≠ orig.content →
        formatF T fs path tmp flt = write fs path out tmp flt) := by
  refine ⟨bytesEqual_eq_true_iff, ?_, ?_⟩
  · intro T fs path tmp flt orig hfs hT
    unfold formatF
    rw [hfs]
    simp [hT, (bytesEqual_eq_true_iff orig.content orig.content).mpr rfl]
  · intro T fs path tmp flt orig out hfs hT hne
    have hg : bytesEqual orig.content out = false := bytesEqual_eq_false_of_ne hne
    unfold formatF
    rw [hfs]
    simp [hT, hg]

/-- Witness for C3: an unchanged file is not written even under a
fault assignment that would make any write fail. -/
theorem change_gate_exact_witness :
    formatF idT fsA ['a'] ['t'] fltClose = (fsA, none) :=
  change_gate_exact.2.1 idT fsA ['a'] ['t'] fltClose ⟨[1], 420⟩ (by decide) rfl

theorem checkRoots_isSome_of_missing (w : World) :
    ∀ (l : List Str) (ex : Str → Bool), (∃ d ∈ l, w.tree d = none) →
      ((checkRoots w l ex).2).isSome = true := by
  intro l
  induction l with
  | nil =>
    intro ex h
    simp at h
  | cons d rest ih =>
    intro ex h
    unfold checkRoots
    cases ht : w.tree d with
    | none => simp
    | some e =>
      rcases h with ⟨d2, hd2, hnone⟩
      rcases List.mem_cons.mp hd2 with heq | hmem
      · rw [heq] at hnone
        rw [ht] at hnone
        exact absurd hnone (by simp)
      · exact ih _ ⟨d2, hmem, hnone⟩

/-- C4: if any configured root directory does not exist, Build returns
an error before any traversal: the filesystem is unchanged, the
per-file pipeline was never invoked, and the error is reported, no
matter what pipeline is installed and even when other configured roots
are valid. -/
theorem build_fail_fast (cfg : Config) (w : World) (pipe : Pipe) (fs : FS)
    (h : ∃ d ∈ splitC ',' cfg.SearchDir, w.tree d = none) :
    (Build cfg w pipe fs).2.fs = fs ∧ (Build cfg w pipe fs).2.visits = [] ∧
      (Build cfg w pipe fs).2.err.isSome = true := by
  have hc := checkRoots_isSome_of_missing w (splitC ',' cfg.SearchDir)
    (newFormat.exclude) h
  unfold Build
  cases hcr : checkRoots w (splitC ',' cfg.SearchDir) (newFormat.exclude) with
  | mk ex eo =>
    cases eo with
    | none =>
      rw [hcr] at hc
      simp at hc
    | some e => simp [hcr]

/-- Witness for C4: root "a" exists, root "b" does not; Build changes
nothing and errors even though the pipeline would fail loudly if run. -/
theorem build_fail_fast_witness :
    (Build ⟨"a,b".toList, [], []⟩ wAB pipeErr fsA).2.fs = fsA ∧
      (Build ⟨"a,b".toList, [], []⟩ wAB pipeErr fsA).2.visits = [] ∧
      (Build ⟨"a,b".toList, [], []⟩ wAB pipeErr fsA).2.err.isSome = true :=
  build_fail_fast ⟨"a,b".toList, [], []⟩ wAB pipeErr fsA
    ⟨['b'], by decide, rfl⟩

/-- C5 counterexample: the path ".." is not in the exclusion set, yet
excludeDir excludes it: its base name ".." begins with a dot and has
length two, so the hidden-directory rule fires, contradicting the
claim that ".." is never excluded merely for beginning with a dot. -/
theorem excludeDir_dotdot_cex :
    newFormat.exclude "..".toList = false ∧
      excludeDir newFormat "..".toList = true := by
  decide

/-- C5 (amended): excludeDir returns true iff the path is in the
exclusion set, or the path's base name begins with a dot and has length
greater than one; consequently "." is not excluded by the hidden rule,
but ".." is excluded by it. -/
theorem excludeDir_spec :
    (∀ (f : FormatS) (p : Str), excludeDir f p = true ↔
      (f.exclude p = true ∨
        ((base p).head? = some '.' ∧ 1 < (base p).length))) ∧
      excludeDir newFormat ['.'] = false ∧
      excludeDir newFormat "..".toList = true := by
  refine ⟨?_, by decide, by decide⟩
  intro f p
  unfold excludeDir
  cases hb : base p with
  | nil => simp
  | cons c cs => simp [List.head?]

/-- C6: excludeFile returns true iff the path is in the exclusion set,
or the lowercased path ends in "_test.go", or the extension is not
".go"; a file excluded this way is skipped by the visitor silently,
with no error and no effect on the filesystem. -/
theorem excludeFile_spec :
    (∀ (f : FormatS) (p : Str), excludeFile f p = true ↔
      (f.exclude p = true ∨
        hasSuffix (toLowerG p) ("_test.go".toList) = true ∨
        extF p ≠ ".go".toList)) ∧
      (∀ (f : FormatS) (pipe : Pipe) (p : Str) (err : Option Err) (fs : FS),
        excludeFile f p = true →
        visit f pipe p false err fs = ⟨fs, [], VisitR.ok⟩) := by
  constructor
  · intro f p
    unfold excludeFile
    simp [or_assoc]
  · intro f pipe p err fs h
    unfold visit
    simp [h]

/-- Witness for C6: "notes.txt" is excluded and the visitor skips it
with no error and no filesystem effect, even with a failing pipeline
installed. -/
theorem excludeFile_spec_witness :
    visit newFormat pipeErr "notes.txt".toList false (some Err.walkErr) fsA
      = ⟨fsA, [], VisitR.ok⟩ :=
  excludeFile_spec.2 newFormat pipeErr "notes.txt".toList (some Err.walkErr)
    fsA (by decide)

/-- C7 counterexample: the walk primitive reports an error for the
visited directory "sub", yet the visitor returns ok, not the wrapped
error: the reported error is dropped, so the remainder of the walk is
not aborted by it. -/
theorem visit_drops_error_cex :
    (visit newFormat pipeErr "sub".toList true (some Err.statErr) fsNone).res
        = VisitR.ok ∧
      VisitR.ok ≠ VisitR.fail (Err.wrap Err.statErr) := by
  decide

/-- C7 (amended): the visitor ignores the error argument supplied by
the walk primitive: its outcome is the same whatever error is reported;
in particular an excluded directory still yields SkipDir rather than
propagating the reported error.  Only errors produced by the per-file
pipeline itself are wrapped and propagated. -/
theorem visit_ignores_reported_error :
    (∀ (f : FormatS) (pipe : Pipe) (p : Str) (isDir : Bool)
        (e1 e2 : Option Err) (fs : FS),
      visit f pipe p isDir e1 fs = visit f pipe p isDir e2 fs) ∧
      (∀ (f : FormatS) (pipe : Pipe) (p : Str) (e : Err) (fs : FS),
        excludeDir f p = true →
        visit f pipe p true (some e) fs = ⟨fs, [], VisitR.skipDir⟩) := by
  constructor
  · intro f pipe p isDir e1 e2 fs
    rfl
  · intro f pipe p e fs h
    unfold visit
    simp [h]

/-- Witness for C7 (amended) on the hidden directory ".git" with a
reported permission error. -/
theorem visit_ignores_reported_error_witness :
    visit newFormat pipeErr ".git".toList true (some Err.statErr) fsNone
        = visit newFormat pipeErr ".git".toList true none fsNone ∧
      visit newFormat pipeErr ".git".toList true (some Err.statErr) fsNone
        = ⟨fsNone, [], VisitR.skipDir⟩ :=
  ⟨visit_ignores_reported_error.1 newFormat pipeErr ".git".toList true
      (some Err.statErr) none fsNone,
    visit_ignores_reported_error.2 newFormat pipeErr ".git".toList
      Err.statErr fsNone (by decide)⟩

/-- C8: a directory that excludeDir excludes is pruned whole: walking
it runs no pipeline on any path, reads nothing, changes nothing and
reports no error, whatever pipeline is installed; and walking a
sibling list containing such a directory is the same as walking the
list without it, so sibling traversal continues. -/
theorem excluded_dir_pruned :
    (∀ (f : FormatS) (pipe : Pipe) (p n : Str) (cs : EntryList) (fs : FS),
      excludeDir f p = true →
      walkE f pipe p (Entry.dir n cs) fs = ⟨fs, [], none⟩) ∧
      (∀ (f : FormatS) (pipe : Pipe) (pp n : Str) (cs rest : EntryList)
          (fs : FS),
        excludeDir f (joinTwo pp n) = true →
        walkList f pipe pp (EntryList.cons (Entry.dir n cs) rest) fs
          = walkList f pipe pp rest fs) := by
  have h1 : ∀ (f : FormatS) (pipe : Pipe) (p n : Str) (cs : EntryList)
      (fs : FS), excludeDir f p = true →
      walkE f pipe p (Entry.dir n cs) fs = ⟨fs, [], none⟩ := by
    intro f pipe p n cs fs h
    unfold walkE visit
    simp [h]
  refine ⟨h1, ?_⟩
  intro f pipe pp n cs rest fs h
  conv =>
    lhs
    unfold walkList
  rw [show Entry.nameOf (Entry.dir n cs) = n from rfl]
  rw [h1 f pipe (joinTwo pp n) n cs fs h]
  simp

/-- Witness for C8 on the excluded directory "r/vendor" with a failing
pipeline installed: the subtree is pruned and a sibling list behaves
as if the excluded directory were absent. -/
theorem excluded_dir_pruned_witness :
    walkE exVendor pipeErr "r/vendor".toList
        (Entry.dir "vendor".toList
          (EntryList.cons (Entry.file "x.go".toList) EntryList.nil)) fsA
      = ⟨fsA, [], none⟩ ∧
      walkList exVendor pipeErr ['r']
          (EntryList.cons (Entry.dir "vendor".toList EntryList.nil)
            EntryList.nil) fsA
        = walkList exVendor pipeErr ['r'] EntryList.nil fsA :=
  ⟨excluded_dir_pruned.1 exVendor pipeErr "r/vendor".toList "vendor".toList
      (EntryList.cons (Entry.file "x.go".toList) EntryList.nil) fsA
      (by decide),
    excluded_dir_pruned.2 exVendor pipeErr ['r'] "vendor".toList
      EntryList.nil EntryList.nil fsA (by decide)⟩

/-- C9 counterexample: with a path-sensitive Transformer, Run and Build
disagree on the same input bytes: Run feeds the empty path and outputs
the byte 0, while Build, walking a root holding a file "r/a.go" with
those input bytes, writes the byte 1 to the file. -/
theorem run_build_differ_cex :
    Run pathT [5] = Except.ok [0] ∧
      (Build ⟨['r'], [], []⟩ w9 (pipeFmt pathT tmpTilde noFaults) fs9).2.fs
          ("r/a.go".toList) = some ⟨[1], 420⟩ ∧
      ([0] : Bytes) ≠ [1] :=
  ⟨rfl, by decide, by decide⟩

/-- C9 (amended): Run reads the whole input, invokes the Transformer
once with the empty path, and outputs the whole result; whenever the
Transformer's output does not depend on the path, that output is
exactly the content Build leaves in a file holding the same input
(written when it differs, left in place when it does not). -/
theorem run_build_agree (T : Transformer) (fs : FS) (path tmp : Str)
    (orig : File) (out : Bytes)
    (hT : ∀ (p : Str) (c : Bytes), T p c = T [] c)
    (hfs : fs path = some orig) (htmp : tmp ≠ path)
    (hout : T path orig.content = Except.ok out) :
    Run T orig.content = Except.ok out ∧
      (formatF T fs path tmp noFaults).1 path = some ⟨out, orig.perm⟩ ∧
      (formatF T fs path tmp noFaults).2 = none := by
  have hpt : path ≠ tmp := Ne.symm htmp
  have hrun : Run T orig.content = Except.ok out := by
    unfold Run
    rw [← hT path orig.content]
    rw [hout]
  refine ⟨hrun, ?_⟩
  unfold formatF write
  rw [hfs]
  simp only [hout]
  cases hg : bytesEqual orig.content out with
  | true =>
    have heq : out = orig.content := ((bytesEqual_eq_true_iff _ _).mp hg).symm
    subst heq
    simp [hfs]
  | false =>
    simp [noFaults, hfs, fsUpdate, hpt]

/-- Witness for C9 (amended) with the path-independent Transformer
that rewrites everything to the byte 2. -/
theorem run_build_agree_witness :
    Run constT [1] = Except.ok [2] ∧
      (formatF constT fsA ['a'] ['t'] noFaults).1 ['a'] = some ⟨[2], 420⟩ ∧
      (formatF constT fsA ['a'] ['t'] noFaults).2 = none :=
  run_build_agree constT fsA ['a'] ['t'] ⟨[1], 420⟩ [2]
    (fun _ _ => rfl) (by decide) (by decide) rfl

/-- C10: a directory that survives the directory check is still put
through the file check, and one that also survives the file check (it
is not in the set, its name ends in ".go" and not, case-insensitively,
in "_test.go") is fed to the per-file pipeline, whose read fails on a
directory, aborting the walk with a wrapped error; a Build over a root
holding such a directory therefore returns an error. -/
theorem dir_named_go_hits_pipeline (T : Transformer) (tmpOf : Str → Str)
    (flt : Faults) (f : FormatS) (p n : Str) (cs : EntryList) (fs : FS)
    (hd : excludeDir f p = false)
    (hset : f.exclude p = false)
    (hgo : extF p = ".go".toList)
    (ht : hasSuffix (toLowerG p) ("_test.go".toList) = false)
    (hfs : fs p = none) :
    walkE f (pipeFmt T tmpOf flt) p (Entry.dir n cs) fs
        = ⟨fs, [p], some (Err.wrap Err.readErr)⟩ ∧
      (Build ⟨['r'], [], []⟩ w10 (pipeFmt T tmpOf flt) fsNone).2.err
        = some (Err.wrap Err.readErr) := by
  have hf : excludeFile f p = false := by
    unfold excludeFile
    rw [hset, ht, hgo]
    simp
  constructor
  · unfold walkE visit
    simp only [hd, hf, Bool.true_and, Bool.false_eq_true, if_false,
      Bool.and_false]
    simp [pipeFmt, formatF, hfs]
  · rfl

/-- Witness for C10: the directory "r/x.go" inside root "r" is passed
to the pipeline and aborts the walk with a wrapped read error. -/
theorem dir_named_go_hits_pipeline_witness :
    walkE newFormat (pipeFmt idT tmpTilde noFaults) "r/x.go".toList
        (Entry.dir "x.go".toList EntryList.nil) fsNone
      = ⟨fsNone, ["r/x.go".toList], some (Err.wrap Err.readErr)⟩ ∧
      (Build ⟨['r'], [], []⟩ w10 (pipeFmt idT tmpTilde noFaults) fsNone).2.err
        = some (Err.wrap Err.readErr) :=
  dir_named_go_hits_pipeline idT tmpTilde noFaults newFormat
    "r/x.go".toList "x.go".toList EntryList.nil fsNone
    (by decide) (by decide) (by decide) (by decide) rfl

end SwagFmt
